import Mathlib

/-!
Verification of the admission-control / failover / handshake core of the
outreach system, as a shallow embedding in Lean.

Conventions used throughout:
* absolute time is a natural number of seconds since an arbitrary epoch;
  a calendar day is `t / 86400`, the time of day is `t % 86400`, and the
  hour of day is `t % 86400 / 3600`;
* the SQLite / JSON stores are modelled as explicit state records that
  every operation threads through;
* Python's `random.randint(a, b)` is modelled by an oracle natural number
  `r` turned into `a + r % (b - a + 1)`, which ranges over exactly `[a, b]`;
* reason / error-message strings are kept as Lean `String`s; substring
  matching and lowercasing are defined on the underlying character lists.
-/

namespace InG

def secondsPerDay : Nat := 86400

/-- Calendar day of an absolute timestamp (`date.today()` for that clock). -/
def dayOf (t : Nat) : Nat := t / secondsPerDay

/-- Time of day, in seconds since midnight (`datetime.time()`). -/
def todOf (t : Nat) : Nat := t % secondsPerDay

/-- Hour of day, 0-23 (`datetime.hour`). -/
def hourOf (t : Nat) : Nat := todOf t / 3600

/-! ## Rate Governor (`src/core/rate_limiter.py`, class `RateLimiter`)

The limiter's whole mutable state lives in the `rate_limiter` SQLite row
(`daily_count`, `last_reset_date`, `last_send_time`); the in-memory object
holds only configuration.  We model the row as `RLState` and the
configuration as `RLConfig`.  `window_start`/`window_end` are times of day
in seconds; the interval bounds are in seconds (the source parses
"5-15 minutes" into seconds once, at construction). -/

structure RLConfig where
  dailyLimit : Nat
  minInterval : Nat
  maxInterval : Nat
  windowStart : Nat
  windowEnd : Nat
  deriving DecidableEq, Repr

structure RLState where
  dailyCount : Nat
  lastResetDate : Nat
  lastSendTime : Option Nat
  deriving DecidableEq, Repr

/-- `RateLimiter._reset_if_new_day`: reset the daily counter on the first
access after the stored date rolls over (`last_reset < date.today()`). -/
def resetIfNewDay (now : Nat) (s : RLState) : RLState :=
  if s.lastResetDate < dayOf now then
    { s with dailyCount := 0, lastResetDate := dayOf now }
  else s

/-- `RateLimiter._get_daily_count`: apply the rollover, then read the
counter.  The rollover mutation persists in the store. -/
def getDailyCount (now : Nat) (s : RLState) : Nat × RLState :=
  let s1 := resetIfNewDay now s
  (s1.dailyCount, s1)

/-- `RateLimiter.can_send`: false if the daily cap is reached (after the
rollover), the time of day is outside the inclusive window, or less than
`min_interval` seconds elapsed since `last_send_time`.  Returns the
possibly rolled-over store alongside the answer. -/
def canSend (cfg : RLConfig) (now : Nat) (s : RLState) : Bool × RLState :=
  let count := (getDailyCount now s).1
  let s1 := (getDailyCount now s).2
  if cfg.dailyLimit ≤ count then (false, s1)
  else if ¬ (cfg.windowStart ≤ todOf now ∧ todOf now ≤ cfg.windowEnd) then (false, s1)
  else
    match s1.lastSendTime with
    | some t => if (now : Int) - (t : Int) < (cfg.minInterval : Int) then (false, s1) else (true, s1)
    | none => (true, s1)

/-- The `UPDATE rate_limiter SET daily_count = daily_count + 1,
last_send_time = now` statement of `record_send`. -/
def sendUpdate (now : Nat) (s : RLState) : RLState :=
  { s with dailyCount := s.dailyCount + 1, lastSendTime := some now }

/-- `random.randint(min_interval, max_interval)` driven by the oracle `r`:
an arbitrary value of the inclusive range `[min_interval, max_interval]`. -/
def randWait (cfg : RLConfig) (r : Nat) : Nat :=
  cfg.minInterval + r % (cfg.maxInterval - cfg.minInterval + 1)

/-- `RateLimiter.record_send`: raise `RateLimitExceededError` when
`can_send` is false (the store keeps any rollover already applied by the
check), otherwise roll over again (idempotent), increment `daily_count`,
set `last_send_time := now` and return `random.randint(min, max)` modelled
through the oracle `r`. -/
def recordSend (cfg : RLConfig) (now : Nat) (r : Nat) (s : RLState) :
    Except RLState (Nat × RLState) :=
  if (canSend cfg now s).1 = false then .error (canSend cfg now s).2
  else
    let s2 := resetIfNewDay now (canSend cfg now s).2
    .ok (randWait cfg r, sendUpdate now s2)

/-! Trace model for the daily-cap invariant: a sequence of `can_send` /
`record_send` calls, interleaved with simulated process restarts.  Since
every `RateLimiter` method reads and writes the SQLite row directly, a
restart reloads exactly the persisted `RLState`: it is the identity on the
store. -/

inductive RLOp where
  | canSendOp (now : Nat)
  | recordSendOp (now : Nat) (r : Nat)
  | restartOp
  deriving DecidableEq, Repr

/-- One protocol step; the boolean records whether the step was a
`record_send` that completed without raising. -/
def rlStep (cfg : RLConfig) (s : RLState) : RLOp → RLState × Bool
  | .canSendOp now => ((canSend cfg now s).2, false)
  | .recordSendOp now r =>
    match recordSend cfg now r s with
    | .error s1 => (s1, false)
    | .ok (_, s1) => (s1, true)
  | .restartOp => (s, false)

/-- Run a list of operations; the second component counts the
`record_send` calls that completed successfully. -/
def rlRun (cfg : RLConfig) (s : RLState) : List RLOp → RLState × Nat
  | [] => (s, 0)
  | op :: ops =>
    let r1 := rlStep cfg s op
    let r2 := rlRun cfg r1.1 ops
    (r2.1, (if r1.2 then 1 else 0) + r2.2)

/-- Whether an operation's clock reading falls on calendar day `d`
(restarts carry no clock). -/
def opOnDay (d : Nat) : RLOp → Bool
  | .canSendOp now => dayOf now = d
  | .recordSendOp now _ => dayOf now = d
  | .restartOp => true

/-! Basic lemmas about the Rate Governor model. -/

theorem resetIfNewDay_lastSendTime (now : Nat) (s : RLState) :
    (resetIfNewDay now s).lastSendTime = s.lastSendTime := by
  unfold resetIfNewDay; split <;> rfl

theorem resetIfNewDay_date_ge (now : Nat) (s : RLState) :
    dayOf now ≤ (resetIfNewDay now s).lastResetDate := by
  unfold resetIfNewDay; split
  · exact Nat.le_refl _
  · exact Nat.le_of_not_lt (by simpa using ‹¬ s.lastResetDate < dayOf now›)

theorem resetIfNewDay_of_ge (now : Nat) (s : RLState)
    (h : dayOf now ≤ s.lastResetDate) : resetIfNewDay now s = s := by
  unfold resetIfNewDay
  rw [if_neg (Nat.not_lt.mpr h)]

theorem resetIfNewDay_idem (now : Nat) (s : RLState) :
    resetIfNewDay now (resetIfNewDay now s) = resetIfNewDay now s :=
  resetIfNewDay_of_ge now _ (resetIfNewDay_date_ge now s)

theorem canSend_snd (cfg : RLConfig) (now : Nat) (s : RLState) :
    (canSend cfg now s).2 = resetIfNewDay now s := by
  simp only [canSend, getDailyCount]
  split
  · rfl
  · split
    · rfl
    · cases hls : (resetIfNewDay now s).lastSendTime with
      | none => rfl
      | some t =>
        dsimp only
        split <;> rfl

theorem canSend_true_count (cfg : RLConfig) (now : Nat) (s : RLState)
    (h : (canSend cfg now s).1 = true) :
    (resetIfNewDay now s).dailyCount < cfg.dailyLimit := by
  by_contra hc
  have hc' : cfg.dailyLimit ≤ (resetIfNewDay now s).dailyCount := Nat.le_of_not_lt hc
  unfold canSend getDailyCount at h
  rw [if_pos hc'] at h
  exact Bool.false_ne_true h

/-- The invariant carried along a single-day trace: the number of
successful sends so far never exceeds the daily limit, and once at least
one send succeeded the stored date is at or beyond the trace's day and the
counter dominates the success count. -/
def DayInv (cfg : RLConfig) (d : Nat) (s : RLState) (k : Nat) : Prop :=
  k ≤ cfg.dailyLimit ∧ (0 < k → d ≤ s.lastResetDate ∧ k ≤ s.dailyCount)

theorem dayInv_reset (cfg : RLConfig) (d now : Nat) (s : RLState) (k : Nat)
    (hday : dayOf now = d) (hinv : DayInv cfg d s k) :
    DayInv cfg d (resetIfNewDay now s) k := by
  rcases hinv with ⟨h1, h2⟩
  refine ⟨h1, fun hk => ?_⟩
  rcases h2 hk with ⟨hd, hc⟩
  rw [resetIfNewDay_of_ge now s (hday ▸ hd)]
  exact ⟨hd, hc⟩

theorem rlRun_bound (cfg : RLConfig) (d : Nat) :
    ∀ (ops : List RLOp) (s : RLState) (k : Nat),
      ops.all (opOnDay d) = true → DayInv cfg d s k →
      k + (rlRun cfg s ops).2 ≤ cfg.dailyLimit := by
  intro ops
  induction ops with
  | nil =>
    intro s k _ hinv
    simpa [rlRun] using hinv.1
  | cons op ops ih =>
    intro s k hall hinv
    rw [List.all_cons, Bool.and_eq_true] at hall
    rcases hall with ⟨hop, hall⟩
    match op with
    | .canSendOp now =>
      have hday : dayOf now = d := by simpa [opOnDay] using hop
      have hstep : rlStep cfg s (.canSendOp now) = ((canSend cfg now s).2, false) := rfl
      simp only [rlRun, hstep, if_neg (Bool.false_ne_true), Nat.zero_add]
      exact ih _ k hall (canSend_snd cfg now s ▸ dayInv_reset cfg d now s k hday hinv)
    | .restartOp =>
      have hstep : rlStep cfg s .restartOp = (s, false) := rfl
      simp only [rlRun, hstep, if_neg (Bool.false_ne_true), Nat.zero_add]
      exact ih _ k hall hinv
    | .recordSendOp now r =>
      have hday : dayOf now = d := by simpa [opOnDay] using hop
      cases hcs : (canSend cfg now s).1 with
      | false =>
        have hrec : recordSend cfg now r s = .error (canSend cfg now s).2 := by
          unfold recordSend; rw [if_pos hcs]
        have hstep : rlStep cfg s (.recordSendOp now r) = ((canSend cfg now s).2, false) := by
          simp [rlStep, hrec]
        simp only [rlRun, hstep, if_neg (Bool.false_ne_true), Nat.zero_add]
        exact ih _ k hall (canSend_snd cfg now s ▸ dayInv_reset cfg d now s k hday hinv)
      | true =>
        have hcount : (resetIfNewDay now s).dailyCount < cfg.dailyLimit :=
          canSend_true_count cfg now s hcs
        have hrec : recordSend cfg now r s =
            .ok (randWait cfg r, sendUpdate now (resetIfNewDay now s)) := by
          unfold recordSend
          rw [if_neg (by simp [hcs])]
          rw [canSend_snd cfg now s, resetIfNewDay_idem]
        have hstep : rlStep cfg s (.recordSendOp now r) =
            (sendUpdate now (resetIfNewDay now s), true) := by
          simp [rlStep, hrec]
        simp only [rlRun, hstep, if_pos rfl, if_true]
        have hinv' : DayInv cfg d (sendUpdate now (resetIfNewDay now s)) (k + 1) := by
          have hcnt : (sendUpdate now (resetIfNewDay now s)).dailyCount =
              (resetIfNewDay now s).dailyCount + 1 := rfl
          have hdt : (sendUpdate now (resetIfNewDay now s)).lastResetDate =
              (resetIfNewDay now s).lastResetDate := rfl
          constructor
          · rcases Nat.eq_zero_or_pos k with hk | hk
            · subst hk; omega
            · rcases hinv.2 hk with ⟨hd, hc⟩
              have hres : resetIfNewDay now s = s := resetIfNewDay_of_ge now s (hday ▸ hd)
              have hks : k ≤ (resetIfNewDay now s).dailyCount := by rw [hres]; exact hc
              omega
          · intro _
            refine ⟨?_, ?_⟩
            · rw [hdt]; exact hday ▸ resetIfNewDay_date_ge now s
            · rw [hcnt]
              rcases Nat.eq_zero_or_pos k with hk | hk
              · subst hk; omega
              · rcases hinv.2 hk with ⟨hd, hc⟩
                have hres : resetIfNewDay now s = s := resetIfNewDay_of_ge now s (hday ▸ hd)
                have hks : k ≤ (resetIfNewDay now s).dailyCount := by rw [hres]; exact hc
                omega
        have := ih _ (k + 1) hall hinv'
        omega

/-- C1: for every sequence of `can_send` / `record_send` calls on one
account within one calendar day — including simulated restarts that reload
the persisted counter mid-day — the number of `record_send` calls that
complete without raising never exceeds `daily_limit`. -/
theorem c1_daily_cap_invariant (cfg : RLConfig) (s : RLState) (d : Nat)
    (ops : List RLOp) (hday : ops.all (opOnDay d) = true) :
    (rlRun cfg s ops).2 ≤ cfg.dailyLimit := by
  have := rlRun_bound cfg d ops s 0 hday
    ⟨Nat.zero_le _, fun h => absurd h (Nat.lt_irrefl 0)⟩
  simpa using this

/-- Witness for C1: a concrete two-send trace on day 0 with a restart in
the middle stays within the limit of the scenario configuration. -/
theorem c1_daily_cap_invariant_witness :
    (rlRun ⟨45, 5, 15, 0, 86399⟩ ⟨0, 0, none⟩
      [.recordSendOp 0 0, .restartOp, .canSendOp 3, .recordSendOp 20 2]).2 ≤ 45 :=
  c1_daily_cap_invariant ⟨45, 5, 15, 0, 86399⟩ ⟨0, 0, none⟩ 0
    [.recordSendOp 0 0, .restartOp, .canSendOp 3, .recordSendOp 20 2] (by decide)

/-- The interval-throttling scenario configuration: `daily_limit = 45`,
`min_interval = 5s`, `max_interval = 15s`, window covering the whole day. -/
def scenarioCfg : RLConfig := ⟨45, 5, 15, 0, 86399⟩

/-- A fresh limiter row at day 0 with no recorded send. -/
def scenarioInit : RLState := ⟨0, 0, none⟩

theorem randWait_mem (cfg : RLConfig) (r : Nat) (hle : cfg.minInterval ≤ cfg.maxInterval) :
    cfg.minInterval ≤ randWait cfg r ∧ randWait cfg r ≤ cfg.maxInterval := by
  refine ⟨Nat.le_add_right _ _, ?_⟩
  have hml : r % (cfg.maxInterval - cfg.minInterval + 1) < cfg.maxInterval - cfg.minInterval + 1 :=
    Nat.mod_lt r (Nat.succ_pos _)
  have hle' : r % (cfg.maxInterval - cfg.minInterval + 1) ≤ cfg.maxInterval - cfg.minInterval :=
    Nat.lt_succ_iff.mp hml
  calc cfg.minInterval + r % (cfg.maxInterval - cfg.minInterval + 1)
      ≤ cfg.minInterval + (cfg.maxInterval - cfg.minInterval) := Nat.add_le_add_left hle' _
    _ = cfg.maxInterval := Nat.add_sub_cancel' hle

/-- C5: `can_send` is false exactly when, after applying the date-rollover
rule, the daily count reached the limit, or the time of day is outside the
inclusive window, or a last send exists and less than `min_interval`
seconds elapsed since it; moreover in the concrete scenario
(`min=5s, max=15s, daily_limit=45`) a `record_send` at `t=0` returns a
wait in `[5,15]`, `can_send` at `t=3` is false and at `t=20` is true. -/
theorem c5_can_send_characterisation :
    (∀ (cfg : RLConfig) (now : Nat) (s : RLState),
      (canSend cfg now s).1 = false ↔
        (cfg.dailyLimit ≤ (resetIfNewDay now s).dailyCount ∨
         ¬ (cfg.windowStart ≤ todOf now ∧ todOf now ≤ cfg.windowEnd) ∨
         ∃ t, s.lastSendTime = some t ∧ (now : Int) - (t : Int) < (cfg.minInterval : Int)))
    ∧ (∀ r : Nat,
        recordSend scenarioCfg 0 r scenarioInit =
          .ok (randWait scenarioCfg r, sendUpdate 0 scenarioInit) ∧
        5 ≤ randWait scenarioCfg r ∧ randWait scenarioCfg r ≤ 15 ∧
        (canSend scenarioCfg 3 (sendUpdate 0 scenarioInit)).1 = false ∧
        (canSend scenarioCfg 20 (sendUpdate 0 scenarioInit)).1 = true) := by
  constructor
  · intro cfg now s
    have hls0 : (resetIfNewDay now s).lastSendTime = s.lastSendTime :=
      resetIfNewDay_lastSendTime now s
    simp only [canSend, getDailyCount]
    by_cases h1 : cfg.dailyLimit ≤ (resetIfNewDay now s).dailyCount
    · simp [h1]
    · rw [if_neg h1]
      by_cases h2 : cfg.windowStart ≤ todOf now ∧ todOf now ≤ cfg.windowEnd
      · rw [if_neg (by simpa using h2)]
        cases hls : (resetIfNewDay now s).lastSendTime with
        | none =>
          have hls' : s.lastSendTime = none := by rw [← hls0]; exact hls
          simp [h1, h2, hls']
        | some t =>
          have hls' : s.lastSendTime = some t := by rw [← hls0]; exact hls
          dsimp only
          by_cases h3 : (now : Int) - (t : Int) < (cfg.minInterval : Int)
          · simp [h1, h2, h3, hls']
          · simp [h1, h2, h3, hls']
      · rw [if_pos h2]
        simp [h2]
  · intro r
    refine ⟨rfl, ?_, ?_, by decide, by decide⟩
    · exact (randWait_mem scenarioCfg r (by decide)).1
    · exact (randWait_mem scenarioCfg r (by decide)).2

/-- C4 (amended): `record_send` raises exactly when `can_send` is false at
call time; in that case the persisted row equals the date-rollover
normal form of the input row — unchanged whenever `last_reset_date` is
already today — because the rollover applied inside the `can_send` check
commits even when the call then raises.  On success it increments the
(post-rollover) `daily_count` by exactly 1, sets `last_send_time := now`,
and returns an oracle-chosen integer of the inclusive range
`[min_interval, max_interval]`, every value of which is attainable. -/
theorem c4_record_send_contract :
    ∀ (cfg : RLConfig) (now r : Nat) (s : RLState),
      (recordSend cfg now r s = .error (resetIfNewDay now s) ↔ (canSend cfg now s).1 = false)
      ∧ (s.lastResetDate = dayOf now → (canSend cfg now s).1 = false →
          recordSend cfg now r s = .error s)
      ∧ ((canSend cfg now s).1 = true →
          recordSend cfg now r s = .ok (randWait cfg r, sendUpdate now (resetIfNewDay now s)))
      ∧ (cfg.minInterval ≤ cfg.maxInterval →
          cfg.minInterval ≤ randWait cfg r ∧ randWait cfg r ≤ cfg.maxInterval)
      ∧ (∀ w, cfg.minInterval ≤ w → w ≤ cfg.maxInterval → ∃ r0, randWait cfg r0 = w) := by
  intro cfg now r s
  have hsurj : ∀ w, cfg.minInterval ≤ w → w ≤ cfg.maxInterval → ∃ r0, randWait cfg r0 = w := by
    intro w hwl hwu
    refine ⟨w - cfg.minInterval, ?_⟩
    unfold randWait
    rw [Nat.mod_eq_of_lt (by omega)]
    omega
  rcases Bool.eq_false_or_eq_true ((canSend cfg now s).1) with hcs | hcs
  · have hrec : recordSend cfg now r s =
        .ok (randWait cfg r, sendUpdate now (resetIfNewDay now s)) := by
      unfold recordSend
      rw [if_neg (by simp [hcs]), canSend_snd, resetIfNewDay_idem]
    refine ⟨?_, ?_, fun _ => hrec, fun h => randWait_mem cfg r h, hsurj⟩
    · rw [hrec]
      constructor
      · intro h; exact absurd h (by simp)
      · intro h; rw [h] at hcs; exact absurd hcs (by simp)
    · intro _ hfalse
      rw [hfalse] at hcs
      exact absurd hcs (by simp)
  · have hrec : recordSend cfg now r s = .error (resetIfNewDay now s) := by
      unfold recordSend
      rw [if_pos hcs, canSend_snd]
    refine ⟨⟨fun _ => hcs, fun _ => hrec⟩, ?_, ?_, fun h => randWait_mem cfg r h, hsurj⟩
    · intro hdate _
      rw [hrec, resetIfNewDay_of_ge now s (Nat.le_of_eq hdate.symm)]
    · intro htrue
      rw [htrue] at hcs
      exact absurd hcs (by simp)

/-- Witness for C4: the contract applied at concrete inputs — a successful
send at `t=0` from a fresh row, a raising call at `t=3` right after it
(state returned unchanged, no rollover pending), and attainability of the
wait value 7. -/
theorem c4_record_send_contract_witness :
    recordSend scenarioCfg 0 3 scenarioInit =
      .ok (randWait scenarioCfg 3, sendUpdate 0 (resetIfNewDay 0 scenarioInit)) ∧
    recordSend scenarioCfg 3 9 (sendUpdate 0 scenarioInit) =
      .error (sendUpdate 0 scenarioInit) ∧
    (5 ≤ randWait scenarioCfg 3 ∧ randWait scenarioCfg 3 ≤ 15) ∧
    (∃ r0, randWait scenarioCfg r0 = 7) :=
  ⟨(c4_record_send_contract scenarioCfg 0 3 scenarioInit).2.2.1 (by decide),
   (c4_record_send_contract scenarioCfg 3 9 (sendUpdate 0 scenarioInit)).2.1
     (by decide) (by decide),
   (c4_record_send_contract scenarioCfg 0 3 scenarioInit).2.2.2.1 (by decide),
   (c4_record_send_contract scenarioCfg 0 3 scenarioInit).2.2.2.2 7 (by decide) (by decide)⟩

/-- Configuration for the C4 counterexample: working window 09:00-17:00. -/
def c4CexCfg : RLConfig := ⟨45, 300, 900, 32400, 61200⟩

/-- Row carrying 7 sends recorded on day 0. -/
def c4CexState : RLState := ⟨7, 0, none⟩

/-- C4 counterexample to the claim as stated: at midnight of day 1 (outside
the window) `record_send` raises, yet the persisted `daily_count` changes
from 7 to 0 — the rollover applied inside the `can_send` check commits even
though the call raises, so the state is not unchanged. -/
theorem c4_record_send_counterexample :
    recordSend c4CexCfg 86400 0 c4CexState = .error ⟨0, 1, none⟩ ∧
    c4CexState.dailyCount = 7 ∧ RLState.dailyCount ⟨0, 1, none⟩ = 0 :=
  ⟨rfl, rfl, rfl⟩

/-! ## Account Pool Manager
(`src/integrations/multi_account_linkedin.py`, class `MultiAccountLinkedInSender`)

Per-account usage records live in the `account_stats` dict, keyed by
account name; the pool-level fields are the configured account list, the
sticky `current_account_index`, the `global_cooldown_until` timestamp and
the JSON state file written by `_save_state`.  Accounts are identified by
their names ("Account_1", "Account_2", ...); credentials are irrelevant to
the control logic and omitted.  The human-readable reason strings returned
beside availability booleans are logging-only in the source and omitted. -/

structure MAConfig where
  dailyLimit : Nat
  hourlyLimit : Nat
  deriving DecidableEq

structure AccountStats where
  dailySent : Nat
  hourlySent : Nat
  lastResetDate : Nat
  lastResetHour : Nat
  totalSent : Nat
  errorCount : Nat
  lastUsed : Option Nat
  cooldownUntil : Option Nat
  lastError : Option String
  deriving DecidableEq

/-- The fresh stats record created by `_get_account_stats` /
`_load_state` for an account seen for the first time. -/
def initStats (now : Nat) : AccountStats :=
  { dailySent := 0, hourlySent := 0, lastResetDate := dayOf now,
    lastResetHour := hourOf now, totalSent := 0, errorCount := 0,
    lastUsed := none, cooldownUntil := none, lastError := none }

/-- `_reset_counters_if_needed`: reset the daily counter (and the error
count) when the stored date differs from today; reduce the error count by
5 (floored at 0, `max(0, n-5)` is natural subtraction) when the stored
hour differs; then reset the hourly counter on the same condition. -/
def resetCountersIfNeeded (now : Nat) (s : AccountStats) : AccountStats :=
  let s1 := if s.lastResetDate ≠ dayOf now then
      { s with dailySent := 0, errorCount := 0, lastResetDate := dayOf now } else s
  let s2 := if s1.lastResetHour ≠ hourOf now then
      { s1 with errorCount := s1.errorCount - 5 } else s1
  if s2.lastResetHour ≠ hourOf now then
      { s2 with hourlySent := 0, lastResetHour := hourOf now } else s2

/-- The daily/hourly limit checks at the end of `_is_account_available`. -/
def availLimits (cfg : MAConfig) (s : AccountStats) : Bool × AccountStats :=
  if cfg.dailyLimit ≤ s.dailySent then (false, s)
  else if cfg.hourlyLimit ≤ s.hourlySent then (false, s)
  else (true, s)

/-- `_is_account_available` on one stats record: reset counters; if an
unexpired cooldown is set, unavailable; if a cooldown has expired, clear
it and reset `error_count` to 0; then apply the daily and hourly caps.
(The source's invalid-timestamp fallback cannot arise here because
`cooldownUntil` is a typed optional timestamp.) -/
def isAccountAvailable (cfg : MAConfig) (now : Nat) (s : AccountStats) :
    Bool × AccountStats :=
  let s1 := resetCountersIfNeeded now s
  match s1.cooldownUntil with
  | some c =>
    if now < c then (false, s1)
    else availLimits cfg { s1 with cooldownUntil := none, errorCount := 0 }
  | none => availLimits cfg s1

/-- The JSON document written by `_save_state` (account stats, sticky
index, global cooldown). -/
structure SavedState where
  accountStats : List (String × AccountStats)
  currentAccountIndex : Nat
  globalCooldownUntil : Option Nat
  deriving DecidableEq

/-- Pool manager state: the in-memory object plus the persisted file. -/
structure PoolSt where
  accounts : List String
  currentAccountIndex : Nat
  accountStats : List (String × AccountStats)
  globalCooldownUntil : Option Nat
  stateFile : Option SavedState
  deriving DecidableEq

/-- Dict lookup in `account_stats`. -/
def lookupStats : List (String × AccountStats) → String → Option AccountStats
  | [], _ => none
  | (k, v) :: t, n => if k = n then some v else lookupStats t n

/-- Dict assignment in `account_stats` (update in place or append). -/
def setStats : List (String × AccountStats) → String → AccountStats →
    List (String × AccountStats)
  | [], n, s => [(n, s)]
  | (k, v) :: t, n, s => if k = n then (k, s) :: t else (k, v) :: setStats t n s

/-- The stats record `_get_account_stats` returns for `n` (existing entry,
or the lazily created fresh record). -/
def statsOrInit (now : Nat) (st : PoolSt) (n : String) : AccountStats :=
  (lookupStats st.accountStats n).getD (initStats now)

/-- `_get_account_stats`: read the record, creating it lazily. -/
def getAccountStats (now : Nat) (st : PoolSt) (n : String) : AccountStats × PoolSt :=
  match lookupStats st.accountStats n with
  | some s => (s, st)
  | none =>
    let s := initStats now
    (s, { st with accountStats := setStats st.accountStats n s })

/-- `_is_account_available` at pool level: fetch the record, evaluate
availability, write the (possibly reset) record back into the dict. -/
def checkAccount (cfg : MAConfig) (now : Nat) (st : PoolSt) (n : String) :
    Bool × PoolSt :=
  let p := getAccountStats now st n
  let q := isAccountAvailable cfg now p.1
  (q.1, { p.2 with accountStats := setStats p.2.accountStats n q.2 })

/-- `_save_state`: write the in-memory stats, sticky index and global
cooldown to the state file. -/
def saveState (st : PoolSt) : PoolSt :=
  { st with stateFile := some ⟨st.accountStats, st.currentAccountIndex, st.globalCooldownUntil⟩ }

/-- Availability of account `n` as evaluated against the current dict
contents (the boolean `_is_account_available` would return now). -/
def availAt (cfg : MAConfig) (now : Nat) (st : PoolSt) (n : String) : Bool :=
  (isAccountAvailable cfg now (statsOrInit now st n)).1

/-- The `for i, account in enumerate(self.accounts)` loop of
`_find_available_account`: skip the current index, return the first
available account, switching the sticky pointer to it and saving state. -/
def scanOthers (cfg : MAConfig) (now : Nat) (idx : Nat) :
    PoolSt → List String → Nat → Option (Nat × String) × PoolSt
  | st, [], _ => (none, st)
  | st, a :: rest, i =>
    if i = idx then scanOthers cfg now idx st rest (i + 1)
    else
      let q := checkAccount cfg now st a
      if q.1 then (some (i, a), saveState { q.2 with currentAccountIndex := i })
      else scanOthers cfg now idx q.2 rest (i + 1)

/-- `_find_available_account` after the global-cooldown gate: try the
current sticky account first, else scan the others in configured order. -/
def findCore (cfg : MAConfig) (now : Nat) (st : PoolSt) : Option (Nat × String) × PoolSt :=
  match st.accounts[st.currentAccountIndex]? with
  | none => (none, st)
  | some cur =>
    let q := checkAccount cfg now st cur
    if q.1 then (some (st.currentAccountIndex, cur), q.2)
    else scanOthers cfg now st.currentAccountIndex q.2 st.accounts 0

/-- `_find_available_account`: a live unexpired global cooldown returns
`None` immediately; an expired one is cleared; then the sticky-then-scan
selection runs. -/
def findAvailableAccount (cfg : MAConfig) (now : Nat) (st : PoolSt) :
    Option (Nat × String) × PoolSt :=
  match st.globalCooldownUntil with
  | some g =>
    if now < g then (none, st)
    else findCore cfg now { st with globalCooldownUntil := none }
  | none => findCore cfg now st

/-- Selection as §4.2 of the specification words it ("try the current
sticky account first; if available, return it unchanged; otherwise scan
all other accounts in configured order and return the first available
one"), for comparison with `findAvailableAccount`. -/
def firstOther (avail : String → Bool) (idx : Nat) : List String → Nat → Option (Nat × String)
  | [], _ => none
  | a :: rest, i =>
    if i = idx then firstOther avail idx rest (i + 1)
    else if avail a then some (i, a) else firstOther avail idx rest (i + 1)

/-- Spec-words companion of the sticky-then-failover scan (see
`firstOther`). -/
def selectSpec (avail : String → Bool) (accounts : List String) (idx : Nat) :
    Option (Nat × String) :=
  match accounts[idx]? with
  | none => none
  | some cur => if avail cur then some (idx, cur) else firstOther avail idx accounts 0

/-! Outcome handling of `send_message` (`multi_account_linkedin.py`,
lines 392-448).  The `SendResult` dataclass (`src/core/models.py`, lines
34-40) declares exactly the fields `success`, `message_id`, `timestamp`,
`error_message` and `service_used` — there is no `status` field, although
`linkedin_sender.py` passes `status=...` at every unipile construction
site and both result consumers read `result.status`.  Each such
construction raises TypeError and is degraded by the surrounding handlers
into a status-less generic failure, so `result.success` is never true for
a unipile sender; the gate `result.success or result.status in [...]` at
line 395 then raises AttributeError on every failed result, and the
throttle classification at lines 407-430 is unreachable — every failure
is handled by the `except Exception` block at lines 435-448 instead.
Substring matching on the lowercased exception text is modelled on
character lists. -/

/-- Does the first character list start with the second one? -/
def startsWithL : List Char → List Char → Bool
  | _, [] => true
  | [], _ :: _ => false
  | a :: as, b :: bs => (a = b) && startsWithL as bs

/-- Does the second list occur as a contiguous run of the first? -/
def containsSubL : List Char → List Char → Bool
  | [], pat => pat.isEmpty
  | a :: rest, pat => startsWithL (a :: rest) pat || containsSubL rest pat

/-- Python's `pat in s` for strings. -/
def strContains (s pat : String) : Bool := containsSubL s.data pat.data

/-- Python's `str.lower()` (character-wise, which is exact for the ASCII
vocabulary matched here). -/
def lowerStr (s : String) : String := ⟨s.data.map Char.toLower⟩

/-- The `SendResult` dataclass exactly as `src/core/models.py` declares
it: there is no `status` field. -/
structure SendResult where
  success : Bool
  messageId : Option String
  timestamp : Option Nat
  errorMessage : Option String
  serviceUsed : Option String
  deriving DecidableEq

/-- The text of the `AttributeError` Python raises when `result.status`
is read on a `SendResult` (the quote characters of the Python message are
elided; they are irrelevant to the keyword matching below). -/
def attributeErrorStatus : String :=
  "AttributeError: SendResult object has no attribute status"

/-- The attribute read `result.status`: the dataclass declares no such
field, so it raises `AttributeError` for every `SendResult` value. -/
def sendResultStatusRead (_r : SendResult) : Except String String :=
  .error attributeErrorStatus

/-- The throttle vocabulary of line 412. -/
def throttleKeywords : List String := ["limit", "rate", "quota", "too many", "temporary"]

/-- `any(keyword in (result.error_message or "").lower() for keyword in [...])`. -/
def isThrottleReason (msg : Option String) : Bool :=
  throttleKeywords.any (fun k => strContains (lowerStr (msg.getD "")) k)

/-- `"temporary provider limit" in (result.error_message or "").lower()`. -/
def isProviderLimit (msg : Option String) : Bool :=
  strContains (lowerStr (msg.getD "")) "temporary provider limit"

/-- 20-minute global cooldown, in seconds. -/
def globalCooldownSeconds : Nat := 1200

/-- 10-minute individual account cooldown, in seconds. -/
def accountCooldownSeconds : Nat := 600

/-- The `try` body of `send_message` after the attempt (lines 392-433):
a truthy `success` counts the send against the account; otherwise the
gate evaluates `result.status in [...]`, whose attribute read raises.
The arms behind that read — counting an invitation as a send, and the
throttle classification of lines 407-430, both embedded verbatim here —
are unreachable for every `SendResult` value. -/
def sendMessageStatsTry (now : Nat) (st : PoolSt) (name : String) (r : SendResult) :
    Except String PoolSt :=
  let p := getAccountStats now st name
  let counted :=
    let s1 := { p.1 with dailySent := p.1.dailySent + 1, hourlySent := p.1.hourlySent + 1,
                         totalSent := p.1.totalSent + 1, lastUsed := some now,
                         errorCount := 0 }
    saveState { p.2 with accountStats := setStats p.2.accountStats name s1 }
  if r.success then .ok counted
  else
    match sendResultStatusRead r with
    | .error e => .error e
    | .ok status =>
      if status = "invitation_sent" ∨ status = "invitation_already_sent" then .ok counted
      else
        let s0 := { p.1 with lastError := r.errorMessage }
        if isThrottleReason r.errorMessage then
          if isProviderLimit r.errorMessage then
            let st1 := { p.2 with globalCooldownUntil := some (now + globalCooldownSeconds) }
            let s1 := { s0 with errorCount := s0.errorCount + 1 }
            .ok (saveState { st1 with accountStats := setStats st1.accountStats name s1 })
          else
            let s1 := { s0 with
                          cooldownUntil := some (now + accountCooldownSeconds)
                          errorCount := s0.errorCount + 1 }
            .ok (saveState { p.2 with accountStats := setStats p.2.accountStats name s1 })
        else
          let s1 := { s0 with errorCount := s0.errorCount + 1 }
          .ok (saveState { p.2 with accountStats := setStats p.2.accountStats name s1 })

/-- The vocabulary of the `except Exception` handler (lines 441): only
exception texts that look like network/API trouble count against the
account. -/
def networkKeywords : List String := ["connection", "timeout", "network", "api", "unipile"]

/-- The `except Exception` handler of `send_message` (lines 435-448):
bump `error_count` only when the lowercased exception text matches the
network vocabulary, record the text as `last_error`, save state. -/
def sendMessageExceptHandler (now : Nat) (st : PoolSt) (name : String) (e : String) : PoolSt :=
  let p := getAccountStats now st name
  let s0 := if networkKeywords.any (fun k => strContains (lowerStr e) k)
            then { p.1 with errorCount := p.1.errorCount + 1 } else p.1
  let s1 := { s0 with lastError := some e }
  saveState { p.2 with accountStats := setStats p.2.accountStats name s1 }

/-- The complete outcome handling of `send_message`: run the `try` body,
and hand any raised exception to the `except` block. -/
def sendMessageStatsUpdate (now : Nat) (st : PoolSt) (name : String) (r : SendResult) :
    PoolSt :=
  match sendMessageStatsTry now st name r with
  | .ok st2 => st2
  | .error e => sendMessageExceptHandler now st name e

/-- `_load_state`: restore stats (dropping unconfigured accounts), the
sticky index (reset to 0 only when out of range) and the global cooldown
from the state file; create fresh stats for accounts without an entry.  A
missing file leaves the constructor-initialised fields. -/
def loadState (now : Nat) (accounts : List String) (persisted : Option SavedState) : PoolSt :=
  match persisted with
  | none =>
    { accounts := accounts, currentAccountIndex := 0, accountStats := [],
      globalCooldownUntil := none, stateFile := none }
  | some d =>
    let kept := d.accountStats.filter (fun p => accounts.contains p.1)
    let idx := if accounts.length ≤ d.currentAccountIndex then 0 else d.currentAccountIndex
    let stats := accounts.foldl
      (fun acc n => if (lookupStats acc n).isSome then acc else setStats acc n (initStats now))
      kept
    { accounts := accounts, currentAccountIndex := idx, accountStats := stats,
      globalCooldownUntil := d.globalCooldownUntil, stateFile := persisted }

/-- `__init__`: run `_load_state`, then unconditionally reset the sticky
index ("Ensure we start with Account_1 (index 0)"). -/
def initSender (now : Nat) (accounts : List String) (persisted : Option SavedState) : PoolSt :=
  { loadState now accounts persisted with currentAccountIndex := 0 }

/-! Lemmas about the per-account counter resets and availability. -/

theorem resetCounters_mk (now d h rd rh ts ec : Nat) (lu cu : Option Nat) (le : Option String) :
    resetCountersIfNeeded now ⟨d, h, rd, rh, ts, ec, lu, cu, le⟩ =
      ⟨if rd ≠ dayOf now then 0 else d,
       if rh ≠ hourOf now then 0 else h,
       dayOf now,
       hourOf now,
       ts,
       if rh ≠ hourOf now then (if rd ≠ dayOf now then 0 else ec) - 5
         else (if rd ≠ dayOf now then 0 else ec),
       lu, cu, le⟩ := by
  simp only [resetCountersIfNeeded]
  by_cases h1 : rd ≠ dayOf now <;> by_cases h2 : rh ≠ hourOf now <;>
    simp_all

theorem resetCounters_lastResetDate (now : Nat) (s : AccountStats) :
    (resetCountersIfNeeded now s).lastResetDate = dayOf now := by
  rcases s with ⟨d, h, rd, rh, ts, ec, lu, cu, le⟩
  rw [resetCounters_mk]

theorem resetCounters_lastResetHour (now : Nat) (s : AccountStats) :
    (resetCountersIfNeeded now s).lastResetHour = hourOf now := by
  rcases s with ⟨d, h, rd, rh, ts, ec, lu, cu, le⟩
  rw [resetCounters_mk]

theorem resetCounters_cooldownUntil (now : Nat) (s : AccountStats) :
    (resetCountersIfNeeded now s).cooldownUntil = s.cooldownUntil := by
  rcases s with ⟨d, h, rd, rh, ts, ec, lu, cu, le⟩
  rw [resetCounters_mk]

theorem resetCounters_noop (now : Nat) (s : AccountStats)
    (h1 : s.lastResetDate = dayOf now) (h2 : s.lastResetHour = hourOf now) :
    resetCountersIfNeeded now s = s := by
  rcases s with ⟨d, h, rd, rh, ts, ec, lu, cu, le⟩
  simp only [resetCountersIfNeeded]
  simp_all

theorem resetCounters_idem (now : Nat) (s : AccountStats) :
    resetCountersIfNeeded now (resetCountersIfNeeded now s) = resetCountersIfNeeded now s :=
  resetCounters_noop now _ (resetCounters_lastResetDate now s) (resetCounters_lastResetHour now s)

theorem availLimits_eq (cfg : MAConfig) (s : AccountStats) :
    availLimits cfg s =
      (decide (s.dailySent < cfg.dailyLimit) && decide (s.hourlySent < cfg.hourlyLimit), s) := by
  unfold availLimits
  split_ifs with h1 h2
  · simp [Nat.not_lt.mpr h1]
  · simp [Nat.not_lt.mpr h2]
  · simp [Nat.lt_of_not_le h1, Nat.lt_of_not_le h2]

/-- The availability boolean as a function of the counter-reset record:
unexpired cooldown means unavailable, otherwise the daily and hourly caps
decide. -/
def availFormula (cfg : MAConfig) (now : Nat) (s1 : AccountStats) : Bool :=
  match s1.cooldownUntil with
  | some c =>
    if now < c then false
    else decide (s1.dailySent < cfg.dailyLimit) && decide (s1.hourlySent < cfg.hourlyLimit)
  | none => decide (s1.dailySent < cfg.dailyLimit) && decide (s1.hourlySent < cfg.hourlyLimit)

theorem isAccountAvailable_fst (cfg : MAConfig) (now : Nat) (s : AccountStats) :
    (isAccountAvailable cfg now s).1 = availFormula cfg now (resetCountersIfNeeded now s) := by
  simp only [isAccountAvailable, availFormula]
  cases hcu : (resetCountersIfNeeded now s).cooldownUntil with
  | none =>
    dsimp only
    rw [availLimits_eq]
  | some c =>
    dsimp only
    split_ifs with h1
    · rfl
    · rw [availLimits_eq]

theorem isAccountAvailable_snd_noCooldown (cfg : MAConfig) (now : Nat) (s : AccountStats)
    (hcu : (resetCountersIfNeeded now s).cooldownUntil = none) :
    (isAccountAvailable cfg now s).2 = resetCountersIfNeeded now s := by
  simp only [isAccountAvailable]
  rw [hcu]
  dsimp only
  rw [availLimits_eq]

theorem isAccountAvailable_snd_live (cfg : MAConfig) (now c : Nat) (s : AccountStats)
    (hcu : (resetCountersIfNeeded now s).cooldownUntil = some c) (hlt : now < c) :
    (isAccountAvailable cfg now s).2 = resetCountersIfNeeded now s := by
  simp only [isAccountAvailable]
  rw [hcu]
  dsimp only
  rw [if_pos hlt]

theorem isAccountAvailable_snd_expired (cfg : MAConfig) (now c : Nat) (s : AccountStats)
    (hcu : (resetCountersIfNeeded now s).cooldownUntil = some c) (hle : c ≤ now) :
    (isAccountAvailable cfg now s).2 =
      { resetCountersIfNeeded now s with cooldownUntil := none, errorCount := 0 } := by
  simp only [isAccountAvailable]
  rw [hcu]
  dsimp only
  rw [if_neg (Nat.not_lt.mpr hle), availLimits_eq]

/-! Lemmas about the stats dict and `_get_account_stats` /
`_is_account_available` at pool level. -/

theorem lookupStats_setStats_self (l : List (String × AccountStats)) (n : String)
    (s : AccountStats) : lookupStats (setStats l n s) n = some s := by
  induction l with
  | nil => simp [setStats, lookupStats]
  | cons kv t ih =>
    rcases kv with ⟨k, v⟩
    by_cases hk : k = n
    · simp [setStats, lookupStats, hk]
    · simp [setStats, lookupStats, hk, ih]

theorem lookupStats_setStats_ne (l : List (String × AccountStats)) (n m : String)
    (s : AccountStats) (h : m ≠ n) :
    lookupStats (setStats l n s) m = lookupStats l m := by
  induction l with
  | nil =>
    simp only [setStats, lookupStats]
    rw [if_neg (fun hnm => h hnm.symm)]
  | cons kv t ih =>
    rcases kv with ⟨k, v⟩
    by_cases hk : k = n
    · subst hk
      simp only [setStats, if_pos rfl, lookupStats]
      rw [if_neg (fun hkm => h hkm.symm), if_neg (fun hkm => h hkm.symm)]
    · simp only [setStats, if_neg hk, lookupStats]
      by_cases hm : k = m
      · rw [if_pos hm, if_pos hm]
      · rw [if_neg hm, if_neg hm]
        exact ih

theorem getAccountStats_fst (now : Nat) (st : PoolSt) (n : String) :
    (getAccountStats now st n).1 = statsOrInit now st n := by
  unfold getAccountStats statsOrInit
  cases hl : lookupStats st.accountStats n <;> simp [hl]

theorem getAccountStats_fields (now : Nat) (st : PoolSt) (n : String) :
    (getAccountStats now st n).2.accounts = st.accounts
    ∧ (getAccountStats now st n).2.currentAccountIndex = st.currentAccountIndex
    ∧ (getAccountStats now st n).2.globalCooldownUntil = st.globalCooldownUntil
    ∧ (getAccountStats now st n).2.stateFile = st.stateFile := by
  unfold getAccountStats
  cases hl : lookupStats st.accountStats n <;> simp [hl]

theorem getAccountStats_lookup_ne (now : Nat) (st : PoolSt) (n m : String) (h : m ≠ n) :
    lookupStats (getAccountStats now st n).2.accountStats m = lookupStats st.accountStats m := by
  unfold getAccountStats
  cases hl : lookupStats st.accountStats n with
  | some s0 => simp [hl]
  | none => simp [hl, lookupStats_setStats_ne _ _ _ _ h]

theorem checkAccount_fst (cfg : MAConfig) (now : Nat) (st : PoolSt) (n : String) :
    (checkAccount cfg now st n).1 = availAt cfg now st n := by
  simp only [checkAccount, availAt]
  rw [getAccountStats_fst]

theorem checkAccount_fields (cfg : MAConfig) (now : Nat) (st : PoolSt) (n : String) :
    (checkAccount cfg now st n).2.accounts = st.accounts
    ∧ (checkAccount cfg now st n).2.currentAccountIndex = st.currentAccountIndex
    ∧ (checkAccount cfg now st n).2.globalCooldownUntil = st.globalCooldownUntil
    ∧ (checkAccount cfg now st n).2.stateFile = st.stateFile := by
  simp only [checkAccount]
  exact getAccountStats_fields now st n

theorem checkAccount_lookup_self (cfg : MAConfig) (now : Nat) (st : PoolSt) (n : String) :
    lookupStats (checkAccount cfg now st n).2.accountStats n =
      some (isAccountAvailable cfg now (statsOrInit now st n)).2 := by
  simp only [checkAccount]
  rw [lookupStats_setStats_self, getAccountStats_fst]

theorem checkAccount_lookup_ne (cfg : MAConfig) (now : Nat) (st : PoolSt) (n m : String)
    (h : m ≠ n) :
    lookupStats (checkAccount cfg now st n).2.accountStats m = lookupStats st.accountStats m := by
  simp only [checkAccount]
  rw [lookupStats_setStats_ne _ _ _ _ h, getAccountStats_lookup_ne now st n m h]

theorem availAt_checkAccount_ne (cfg : MAConfig) (now : Nat) (st : PoolSt) (n m : String)
    (h : m ≠ n) :
    availAt cfg now (checkAccount cfg now st n).2 m = availAt cfg now st m := by
  unfold availAt statsOrInit
  rw [checkAccount_lookup_ne cfg now st n m h]

theorem isAccountAvailable_fst_stable (cfg : MAConfig) (now : Nat) (s : AccountStats) :
    (isAccountAvailable cfg now (isAccountAvailable cfg now s).2).1 =
      (isAccountAvailable cfg now s).1 := by
  rw [isAccountAvailable_fst, isAccountAvailable_fst]
  cases hcu : (resetCountersIfNeeded now s).cooldownUntil with
  | none =>
    rw [isAccountAvailable_snd_noCooldown cfg now s hcu, resetCounters_idem]
  | some c =>
    by_cases hlt : now < c
    · rw [isAccountAvailable_snd_live cfg now c s hcu hlt, resetCounters_idem]
    · have hle : c ≤ now := Nat.le_of_not_lt hlt
      rw [isAccountAvailable_snd_expired cfg now c s hcu hle]
      have hnoop : resetCountersIfNeeded now
          { resetCountersIfNeeded now s with cooldownUntil := none, errorCount := 0 } =
          { resetCountersIfNeeded now s with cooldownUntil := none, errorCount := 0 } := by
        apply resetCounters_noop
        · exact resetCounters_lastResetDate now s
        · exact resetCounters_lastResetHour now s
      rw [hnoop]
      unfold availFormula
      rw [hcu]
      dsimp only
      rw [if_neg hlt]

theorem availAt_checkAccount_self (cfg : MAConfig) (now : Nat) (st : PoolSt) (n : String) :
    availAt cfg now (checkAccount cfg now st n).2 n = availAt cfg now st n := by
  unfold availAt statsOrInit
  rw [checkAccount_lookup_self]
  exact isAccountAvailable_fst_stable cfg now _

/-- The failover scan agrees with the spec-words `firstOther` selection as
long as every scanned account's availability (against the evolving dict)
matches the reference function `f`, and it only moves the sticky pointer
— and writes the state file — when it returns a switched account. -/
theorem scanOthers_spec (cfg : MAConfig) (now : Nat) (idx : Nat) (f : String → Bool) :
    ∀ (rest : List String) (i : Nat) (st : PoolSt),
      rest.Nodup → (∀ n ∈ rest, availAt cfg now st n = f n) →
      (scanOthers cfg now idx st rest i).1 = firstOther f idx rest i
      ∧ (scanOthers cfg now idx st rest i).2.accounts = st.accounts
      ∧ (scanOthers cfg now idx st rest i).2.globalCooldownUntil = st.globalCooldownUntil
      ∧ (∀ j nm, firstOther f idx rest i = some (j, nm) →
          (scanOthers cfg now idx st rest i).2.currentAccountIndex = j
          ∧ ∃ sv, (scanOthers cfg now idx st rest i).2.stateFile = some sv
              ∧ sv.currentAccountIndex = j)
      ∧ (firstOther f idx rest i = none →
          (scanOthers cfg now idx st rest i).2.currentAccountIndex = st.currentAccountIndex
          ∧ (scanOthers cfg now idx st rest i).2.stateFile = st.stateFile) := by
  intro rest
  induction rest with
  | nil =>
    intro i st _ _
    refine ⟨rfl, rfl, rfl, ?_, fun _ => ⟨rfl, rfl⟩⟩
    intro j nm hj
    exact absurd hj.symm (Option.some_ne_none _)
  | cons a rest ih =>
    intro i st hnd hf
    have hnd' : rest.Nodup := (List.nodup_cons.mp hnd).2
    have hmem : a ∉ rest := (List.nodup_cons.mp hnd).1
    have hfa : (checkAccount cfg now st a).1 = f a := by
      rw [checkAccount_fst]
      exact hf a (List.mem_cons_self a rest)
    by_cases hi : i = idx
    · simp only [scanOthers, firstOther, if_pos hi]
      exact ih (i + 1) st hnd' (fun n hn => hf n (List.mem_cons_of_mem a hn))
    · cases hfab : f a with
      | true =>
        have hcond : (checkAccount cfg now st a).1 = true := by rw [hfa, hfab]
        have hscan : scanOthers cfg now idx st (a :: rest) i =
            (some (i, a), saveState { (checkAccount cfg now st a).2 with
                currentAccountIndex := i }) := by
          simp only [scanOthers]
          rw [if_neg hi, if_pos hcond]
        have hfirst : firstOther f idx (a :: rest) i = some (i, a) := by
          simp only [firstOther]
          rw [if_neg hi, if_pos hfab]
        rw [hscan, hfirst]
        have hcf := checkAccount_fields cfg now st a
        refine ⟨rfl, ?_, ?_, ?_, ?_⟩
        · simpa [saveState] using hcf.1
        · simpa [saveState] using hcf.2.2.1
        · intro j nm hj
          obtain ⟨hji, hnm⟩ : i = j ∧ a = nm := by simpa using hj
          subst hji
          exact ⟨rfl, ⟨_, rfl, rfl⟩⟩
        · intro hn
          exact absurd hn (Option.some_ne_none _)
      | false =>
        have hcond : (checkAccount cfg now st a).1 = false := hfa.trans hfab
        have hscan : scanOthers cfg now idx st (a :: rest) i =
            scanOthers cfg now idx (checkAccount cfg now st a).2 rest (i + 1) := by
          simp only [scanOthers]
          rw [if_neg hi, if_neg (by simp [hcond])]
        have hfirst : firstOther f idx (a :: rest) i = firstOther f idx rest (i + 1) := by
          simp only [firstOther]
          rw [if_neg hi, if_neg (by simp [hfab])]
        rw [hscan, hfirst]
        have hcf := checkAccount_fields cfg now st a
        obtain ⟨g1, g2, g3, g4, g5⟩ := ih (i + 1) (checkAccount cfg now st a).2 hnd'
          (fun n hn => by
            rw [availAt_checkAccount_ne cfg now st a n (ne_of_mem_of_not_mem hn hmem)]
            exact hf n (List.mem_cons_of_mem a hn))
        exact ⟨g1, g2.trans hcf.1, g3.trans hcf.2.2.1, g4,
               fun hn => ⟨(g5 hn).1.trans hcf.2.1, (g5 hn).2.trans hcf.2.2.2⟩⟩

theorem findAvailable_globalActive (cfg : MAConfig) (now : Nat) (st : PoolSt) (g : Nat)
    (hg : st.globalCooldownUntil = some g) (hlt : now < g) :
    findAvailableAccount cfg now st = (none, st) := by
  unfold findAvailableAccount
  rw [hg]
  dsimp only
  rw [if_pos hlt]

theorem findAvailable_globalExpired (cfg : MAConfig) (now : Nat) (st : PoolSt) (g : Nat)
    (hg : st.globalCooldownUntil = some g) (hle : g ≤ now) :
    findAvailableAccount cfg now st =
      findCore cfg now { st with globalCooldownUntil := none } := by
  unfold findAvailableAccount
  rw [hg]
  dsimp only
  rw [if_neg (Nat.not_lt.mpr hle)]

theorem findAvailable_globalNone (cfg : MAConfig) (now : Nat) (st : PoolSt)
    (hg : st.globalCooldownUntil = none) :
    findAvailableAccount cfg now st = findCore cfg now st := by
  unfold findAvailableAccount
  rw [hg]

/-- C2: a live unexpired global cooldown makes `select_account` return
`None` with the state untouched (even if an individual account is
available); an expired one is cleared before the normal selection runs;
and the selection itself refines the spec's sticky-then-failover words:
its returned value equals `selectSpec`, the sticky account is returned
with pointer and state file untouched, a switch to another account moves
the pointer to it and immediately persists it into the state file, and a
fully unavailable pool leaves pointer and file untouched. -/
theorem c2_select_account (cfg : MAConfig) (now : Nat) (st : PoolSt) :
    (∀ g, st.globalCooldownUntil = some g → now < g →
        findAvailableAccount cfg now st = (none, st))
    ∧ (∀ g, st.globalCooldownUntil = some g → g ≤ now →
        findAvailableAccount cfg now st =
          findCore cfg now { st with globalCooldownUntil := none })
    ∧ (st.globalCooldownUntil = none →
        findAvailableAccount cfg now st = findCore cfg now st)
    ∧ (st.accounts.Nodup →
        ((findCore cfg now st).1 =
            selectSpec (availAt cfg now st) st.accounts st.currentAccountIndex)
        ∧ (∀ cur, st.accounts[st.currentAccountIndex]? = some cur →
            availAt cfg now st cur = true →
            (findCore cfg now st).2.currentAccountIndex = st.currentAccountIndex
            ∧ (findCore cfg now st).2.stateFile = st.stateFile)
        ∧ (∀ j nm, (findCore cfg now st).1 = some (j, nm) → j ≠ st.currentAccountIndex →
            (findCore cfg now st).2.currentAccountIndex = j
            ∧ ∃ sv, (findCore cfg now st).2.stateFile = some sv ∧ sv.currentAccountIndex = j)
        ∧ ((findCore cfg now st).1 = none →
            (findCore cfg now st).2.currentAccountIndex = st.currentAccountIndex
            ∧ (findCore cfg now st).2.stateFile = st.stateFile)) := by
  refine ⟨fun g hg hlt => findAvailable_globalActive cfg now st g hg hlt,
          fun g hg hle => findAvailable_globalExpired cfg now st g hg hle,
          fun hg => findAvailable_globalNone cfg now st hg, ?_⟩
  intro hnd
  cases hcur : st.accounts[st.currentAccountIndex]? with
  | none =>
    have hcore : findCore cfg now st = (none, st) := by
      simp only [findCore]
      rw [hcur]
    have hsel : selectSpec (availAt cfg now st) st.accounts st.currentAccountIndex = none := by
      simp only [selectSpec]
      rw [hcur]
    refine ⟨by rw [hcore, hsel], ?_, ?_, ?_⟩
    · intro cur hcur' _
      exact Option.noConfusion hcur'
    · intro j nm hj _
      rw [hcore] at hj
      exact Option.noConfusion hj
    · intro _
      rw [hcore]
      exact ⟨rfl, rfl⟩
  | some cur =>
    have hfa : (checkAccount cfg now st cur).1 = availAt cfg now st cur :=
      checkAccount_fst cfg now st cur
    cases hav : availAt cfg now st cur with
    | true =>
      have hcond : (checkAccount cfg now st cur).1 = true := by rw [hfa, hav]
      have hcore : findCore cfg now st =
          (some (st.currentAccountIndex, cur), (checkAccount cfg now st cur).2) := by
        simp only [findCore]
        rw [hcur]
        dsimp only
        rw [if_pos hcond]
      have hsel : selectSpec (availAt cfg now st) st.accounts st.currentAccountIndex =
          some (st.currentAccountIndex, cur) := by
        simp only [selectSpec]
        rw [hcur]
        dsimp only
        rw [if_pos hav]
      have hcf := checkAccount_fields cfg now st cur
      refine ⟨by rw [hcore, hsel], ?_, ?_, ?_⟩
      · intro cur' _ _
        rw [hcore]
        exact ⟨hcf.2.1, hcf.2.2.2⟩
      · intro j nm hj hne
        rw [hcore] at hj
        obtain ⟨hji, _⟩ : st.currentAccountIndex = j ∧ cur = nm := by simpa using hj
        exact absurd hji.symm hne
      · intro hn
        rw [hcore] at hn
        exact absurd hn (Option.some_ne_none _)
    | false =>
      have hcond : (checkAccount cfg now st cur).1 = false := hfa.trans hav
      have hcore : findCore cfg now st =
          scanOthers cfg now st.currentAccountIndex (checkAccount cfg now st cur).2
            st.accounts 0 := by
        simp only [findCore]
        rw [hcur]
        dsimp only
        rw [if_neg (by simp [hcond])]
      have hsel : selectSpec (availAt cfg now st) st.accounts st.currentAccountIndex =
          firstOther (availAt cfg now st) st.currentAccountIndex st.accounts 0 := by
        simp only [selectSpec]
        rw [hcur]
        dsimp only
        rw [if_neg (by simp [hav])]
      have hcf := checkAccount_fields cfg now st cur
      obtain ⟨g1, g2, g3, g4, g5⟩ :=
        scanOthers_spec cfg now st.currentAccountIndex (availAt cfg now st) st.accounts 0
          (checkAccount cfg now st cur).2 hnd
          (fun n _ => by
            by_cases hna : n = cur
            · subst hna
              exact availAt_checkAccount_self cfg now st n
            · exact availAt_checkAccount_ne cfg now st cur n hna)
      refine ⟨by rw [hcore, hsel]; exact g1, ?_, ?_, ?_⟩
      · intro cur' hcur' hav'
        obtain rfl : cur = cur' := by simpa using hcur'
        exact absurd (hav.symm.trans hav') (by decide)
      · intro j nm hj hne
        rw [hcore] at hj
        have hfirst : firstOther (availAt cfg now st) st.currentAccountIndex st.accounts 0 =
            some (j, nm) := g1.symm.trans hj
        rw [hcore]
        exact g4 j nm hfirst
      · intro hn
        rw [hcore] at hn
        have hfirst : firstOther (availAt cfg now st) st.currentAccountIndex st.accounts 0 =
            none := g1.symm.trans hn
        rw [hcore]
        exact ⟨(g5 hfirst).1.trans hcf.2.1, (g5 hfirst).2.trans hcf.2.2.2⟩

/-- Pool with two fresh accounts under an active global cooldown. -/
def c2WitGlobal : PoolSt :=
  { accounts := ["Account_1", "Account_2"], currentAccountIndex := 0,
    accountStats := [], globalCooldownUntil := some 1000, stateFile := none }

/-- Pool with two fresh accounts and no global cooldown. -/
def c2WitFresh : PoolSt :=
  { accounts := ["Account_1", "Account_2"], currentAccountIndex := 0,
    accountStats := [], globalCooldownUntil := none, stateFile := none }

/-- Witness for C2: the global-cooldown refusal and the selection
refinement, applied to a concrete two-account pool. -/
theorem c2_select_account_witness :
    findAvailableAccount ⟨50, 10⟩ 0 c2WitGlobal = (none, c2WitGlobal)
    ∧ (findCore ⟨50, 10⟩ 0 c2WitFresh).1 =
        selectSpec (availAt ⟨50, 10⟩ 0 c2WitFresh) c2WitFresh.accounts
          c2WitFresh.currentAccountIndex :=
  ⟨(c2_select_account ⟨50, 10⟩ 0 c2WitGlobal).1 1000 rfl (by decide),
   ((c2_select_account ⟨50, 10⟩ 0 c2WitFresh).2.2.2 (by decide)).1⟩

/-! Failure classification (C3) and cooldown self-expiry (C9). -/

theorem isAccountAvailable_fst_errCongr (cfg : MAConfig) (now : Nat) (s : AccountStats)
    (ec : Nat) (le : Option String) :
    (isAccountAvailable cfg now { s with errorCount := ec, lastError := le }).1 =
      (isAccountAvailable cfg now s).1 := by
  rw [isAccountAvailable_fst, isAccountAvailable_fst]
  rcases s with ⟨d, h, rd, rh, ts, ec0, lu, cu, le0⟩
  dsimp only
  rw [resetCounters_mk, resetCounters_mk]
  unfold availFormula
  cases cu <;> rfl

theorem statsOrInit_saveSet (now : Nat) (Y : PoolSt) (name : String) (s1 : AccountStats) :
    statsOrInit now
      (saveState { Y with accountStats := setStats Y.accountStats name s1 }) name = s1 := by
  unfold statsOrInit saveState
  dsimp only
  rw [lookupStats_setStats_self]
  rfl

/-- C3 (the intended classification is unreachable): for every failed
result — `success` is false for everything the unipile sender can return
— the `try` body of `send_message` raises the `status` AttributeError
before any classification, so the outcome lands in the generic `except`
handler: no account cooldown and no global cooldown is ever set, the
error count is not even bumped (the AttributeError text matches no
network keyword), and only `last_error` records the exception text.
This holds whatever the failure reason says, including a literal
"temporary provider limit". -/
theorem c3_classification_unreachable (cfg : MAConfig) (now : Nat) (st : PoolSt)
    (name : String) (r : SendResult) (h : r.success = false) :
    sendMessageStatsTry now st name r = .error attributeErrorStatus
    ∧ sendMessageStatsUpdate now st name r
        = sendMessageExceptHandler now st name attributeErrorStatus
    ∧ statsOrInit now (sendMessageStatsUpdate now st name r) name
        = { statsOrInit now st name with lastError := some attributeErrorStatus }
    ∧ (sendMessageStatsUpdate now st name r).globalCooldownUntil = st.globalCooldownUntil
    ∧ availAt cfg now (sendMessageStatsUpdate now st name r) name
        = availAt cfg now st name := by
  have htry : sendMessageStatsTry now st name r = .error attributeErrorStatus := by
    unfold sendMessageStatsTry
    rw [if_neg (by simp [h])]
    rfl
  have hupd : sendMessageStatsUpdate now st name r
      = sendMessageExceptHandler now st name attributeErrorStatus := by
    unfold sendMessageStatsUpdate
    rw [htry]
  have hkw : networkKeywords.any (fun k => strContains (lowerStr attributeErrorStatus) k)
      = false := by decide
  have hexc : sendMessageExceptHandler now st name attributeErrorStatus =
      saveState { (getAccountStats now st name).2 with
          accountStats := setStats (getAccountStats now st name).2.accountStats name
            { (getAccountStats now st name).1 with
                lastError := some attributeErrorStatus } } := by
    simp only [sendMessageExceptHandler]
    rw [if_neg (by simp [hkw])]
  refine ⟨htry, hupd, ?_, ?_, ?_⟩
  · rw [hupd, hexc, statsOrInit_saveSet, getAccountStats_fst]
  · rw [hupd, hexc]
    simp only [saveState]
    exact (getAccountStats_fields now st name).2.2.1
  · unfold availAt
    rw [hupd, hexc, statsOrInit_saveSet, getAccountStats_fst]
    exact isAccountAvailable_fst_errCongr cfg now _ _ _

/-- The failure the spec intends to trigger the global cooldown: a failed
result whose reason is literally "temporary provider limit". -/
def c3BugResult : SendResult :=
  ⟨false, none, some 0, some "temporary provider limit", some "unipile"⟩

/-- Witness for C3: even a result carrying the distinguished provider
reason never reaches the classification — the state keeps no cooldown,
the same error count, and only the AttributeError text in `last_error`. -/
theorem c3_classification_unreachable_witness :
    sendMessageStatsTry 0 c2WitFresh "Account_1" c3BugResult = .error attributeErrorStatus
    ∧ statsOrInit 0 (sendMessageStatsUpdate 0 c2WitFresh "Account_1" c3BugResult) "Account_1"
        = { statsOrInit 0 c2WitFresh "Account_1" with lastError := some attributeErrorStatus }
    ∧ (sendMessageStatsUpdate 0 c2WitFresh "Account_1" c3BugResult).globalCooldownUntil
        = none
    ∧ availAt ⟨50, 10⟩ 0 (sendMessageStatsUpdate 0 c2WitFresh "Account_1" c3BugResult)
        "Account_1" = availAt ⟨50, 10⟩ 0 c2WitFresh "Account_1" := by
  have h := c3_classification_unreachable ⟨50, 10⟩ 0 c2WitFresh "Account_1" c3BugResult rfl
  exact ⟨h.1, h.2.2.1, h.2.2.2.1, h.2.2.2.2⟩

/-- C9 (amended): an expired cooldown is cleared — and `error_count`
reset to 0 — by the next availability evaluation itself, with no explicit
clear operation; the account is then available exactly when its daily and
hourly caps are not reached. -/
theorem c9_cooldown_self_expiry (cfg : MAConfig) (now c : Nat) (s : AccountStats)
    (hcu : s.cooldownUntil = some c) (hle : c ≤ now) :
    (isAccountAvailable cfg now s).2.cooldownUntil = none
    ∧ (isAccountAvailable cfg now s).2.errorCount = 0
    ∧ ((isAccountAvailable cfg now s).1 = true ↔
        ((resetCountersIfNeeded now s).dailySent < cfg.dailyLimit
          ∧ (resetCountersIfNeeded now s).hourlySent < cfg.hourlyLimit)) := by
  have hcu' : (resetCountersIfNeeded now s).cooldownUntil = some c := by
    rw [resetCounters_cooldownUntil]
    exact hcu
  have hsnd := isAccountAvailable_snd_expired cfg now c s hcu' hle
  refine ⟨by rw [hsnd], by rw [hsnd], ?_⟩
  rw [isAccountAvailable_fst]
  unfold availFormula
  rw [hcu']
  dsimp only
  rw [if_neg (Nat.not_lt.mpr hle)]
  simp

/-- Stats with an expired cooldown and mid-range counters. -/
def c9WitStats : AccountStats := ⟨3, 2, 0, 0, 3, 4, none, some 100, none⟩

/-- Witness for C9: the amended self-expiry property at a concrete
expired-cooldown record. -/
theorem c9_cooldown_self_expiry_witness :
    (isAccountAvailable ⟨50, 10⟩ 200 c9WitStats).2.cooldownUntil = none
    ∧ (isAccountAvailable ⟨50, 10⟩ 200 c9WitStats).2.errorCount = 0
    ∧ ((isAccountAvailable ⟨50, 10⟩ 200 c9WitStats).1 = true ↔
        ((resetCountersIfNeeded 200 c9WitStats).dailySent < 50
          ∧ (resetCountersIfNeeded 200 c9WitStats).hourlySent < 10)) :=
  c9_cooldown_self_expiry ⟨50, 10⟩ 200 100 c9WitStats rfl (by decide)

/-- Stats whose cooldown expired but whose daily cap is reached. -/
def c9CexStats : AccountStats := ⟨50, 0, 0, 0, 50, 3, none, some 100, none⟩

/-- C9 counterexample to the claim as stated: an account whose
`cooldown_until` lies in the past is still not treated as available when
its daily cap is reached — the evaluation clears the cooldown but returns
unavailable. -/
theorem c9_counterexample :
    c9CexStats.cooldownUntil = some 100 ∧ (100 : Nat) ≤ 200
    ∧ (isAccountAvailable ⟨50, 10⟩ 200 c9CexStats).1 = false :=
  ⟨rfl, by decide, rfl⟩

/-- C8 (amended): `_load_state` alone does restore a valid persisted
sticky index (resetting it only when out of range), but the constructor
then unconditionally resets `current_account_index` to 0, so after a
restart the pool always starts at account 0 regardless of the persisted
pointer. -/
theorem c8_sticky_pointer_reset :
    (∀ (now : Nat) (accounts : List String) (d : SavedState),
        d.currentAccountIndex < accounts.length →
        (loadState now accounts (some d)).currentAccountIndex = d.currentAccountIndex)
    ∧ (∀ (now : Nat) (accounts : List String) (p : Option SavedState),
        (initSender now accounts p).currentAccountIndex = 0) := by
  constructor
  · intro now accounts d h
    simp only [loadState]
    rw [if_neg (Nat.not_le.mpr h)]
  · intro now accounts p
    rfl

/-- Witness for C8: a persisted index 1 of a two-account pool is restored
by `_load_state` and then discarded by the constructor. -/
theorem c8_sticky_pointer_reset_witness :
    (loadState 0 ["Account_1", "Account_2"] (some ⟨[], 1, none⟩)).currentAccountIndex = 1
    ∧ (initSender 0 ["Account_1", "Account_2"] (some ⟨[], 1, none⟩)).currentAccountIndex = 0 :=
  ⟨c8_sticky_pointer_reset.1 0 ["Account_1", "Account_2"] ⟨[], 1, none⟩ (by decide),
   c8_sticky_pointer_reset.2 0 ["Account_1", "Account_2"] (some ⟨[], 1, none⟩)⟩

/-- C8 counterexample to the claim as stated: re-initialising the pool
from a persisted state whose valid sticky index is 1 yields index 0, not
1 — the failover decision is re-made on every cold start. -/
theorem c8_counterexample :
    (initSender 0 ["Account_1", "Account_2"] (some ⟨[], 1, none⟩)).currentAccountIndex = 0
    ∧ SavedState.currentAccountIndex ⟨[], 1, none⟩ = 1
    ∧ (1 : Nat) < 2 :=
  ⟨rfl, rfl, by decide⟩

/-! ## Invitation Ledger and Dispatch Core
(`src/agents/outreach_agent.py`: `check_pending_invitations`,
`process_allocated_leads`; `src/integrations/linkedin_sender.py`:
`check_invitation_status`, `_send_via_unipile`)

The contact store rows are modelled as `Lead` records.  The free-text
`notes` strings the agent writes ("Invitation ID: ..., Waiting for
acceptance...", "Invitation accepted at ...", ...) are abstracted into the
`NoteV` tags below; no claim inspects their exact text.  The dispatch
result handler shares the `SendResult` situation modelled above: its very
first test reads `result.status`, which raises for every value of the
dataclass, so the per-lead exception isolation skips the contact with no
store write at all. -/

/-- The note strings written into a lead's `notes` field. -/
inductive NoteV where
  | invitationNote (inviteId : Option String)
  | alreadySentNote
  | acceptedNote (t : Nat)
  | declinedNote (t : Nat)
  | expiredNote (t : Nat)
  | failedNote (err : Option String)
  | raw (s : String)
  deriving DecidableEq

/-- The lead fields this core reads and writes. -/
structure Lead where
  id : Nat
  contactStatus : String
  allocatedTo : Option String
  allocatedAt : Option Nat
  messageSent : Option String
  messageSentAt : Option Nat
  notes : NoteV
  lastUpdated : Option Nat
  deriving DecidableEq

/-- The per-lead update of `check_pending_invitations` given the polled
invitation status: `accepted` resets the contact to "Allocated" (ready for
the next dispatch tick), `declined` is terminal "Failed", `expired` goes
back to "Allocated" for a retried invitation, anything else (i.e.
`pending`) changes nothing. -/
def reconcileLead (now : Nat) (status : String) (l : Lead) : Lead :=
  if status = "accepted" then
    { l with contactStatus := "Allocated", allocatedTo := some "Outreach",
             allocatedAt := some now, notes := .acceptedNote now, lastUpdated := some now }
  else if status = "declined" then
    { l with contactStatus := "Failed", notes := .declinedNote now, lastUpdated := some now }
  else if status = "expired" then
    { l with contactStatus := "Allocated", notes := .expiredNote now, lastUpdated := some now }
  else l

/-- `check_pending_invitations` over the contact store: only leads whose
`contact_status` is "Invitation Sent" are read (the store filter), each is
reconciled against the channel-reported status. -/
def checkPendingInvitations (now : Nat) (statusOf : Lead → String) (store : List Lead) :
    List Lead :=
  store.map fun l =>
    if l.contactStatus = "Invitation Sent" then reconcileLead now (statusOf l) l else l

/-- The body of the per-lead `try` in `process_allocated_leads` from the
result test on (lines 141-191).  The very first test,
`result.status == "invitation_sent"`, reads the `status` attribute and
raises; the branch structure behind it — parking the contact in
"Invitation Sent", marking a successful send "Message Sent", and
resetting any failure to "Allocated" with an error note — is embedded
verbatim but unreachable for every `SendResult` value. -/
def processLeadResult (now : Nat) (result : SendResult) (message : String) (l : Lead) :
    Except String Lead :=
  match sendResultStatusRead result with
  | .error e => .error e
  | .ok status =>
    if status = "invitation_sent" then
      .ok { l with contactStatus := "Invitation Sent", messageSent := some message,
                   messageSentAt := some (result.timestamp.getD now),
                   notes := .invitationNote result.messageId, lastUpdated := some now }
    else if status = "invitation_already_sent" then
      .ok (if l.contactStatus ≠ "Invitation Sent" then
            { l with contactStatus := "Invitation Sent", notes := .alreadySentNote,
                     lastUpdated := some now }
          else l)
    else if result.success then
      .ok { l with contactStatus := "Message Sent", messageSent := some message,
                   messageSentAt := some (result.timestamp.getD now), lastUpdated := some now }
    else
      .ok { l with contactStatus := "Allocated", notes := .failedNote result.errorMessage,
                   lastUpdated := some now }

/-- The per-lead `except Exception` isolation of `process_allocated_leads`
(lines 197-199): a raise inside the body is logged and the loop continues
— the stored lead is left exactly as it was, no update is written. -/
def processLeadStep (now : Nat) (result : SendResult) (message : String) (l : Lead) : Lead :=
  match processLeadResult now result message l with
  | .ok l2 => l2
  | .error _ => l

/-- What `_send_via_unipile` actually returns for a contact whose
identifier cannot be resolved: the `status='user_not_found'` construction
at lines 209-215 raises TypeError (no such dataclass field), and the
outermost handler at lines 217-224 wraps that TypeError text into a
status-less generic failure (quote characters of the message elided). -/
def userNotFoundRuntimeResult (now : Nat) : SendResult :=
  { success := false, messageId := none, timestamp := some now,
    errorMessage := some "TypeError: init got an unexpected keyword argument status",
    serviceUsed := some "unipile" }

/-- `LinkedInSender.check_invitation_status`: for a non-unipile service
always "pending"; otherwise "accepted" exactly when the contact is found
in the existing chats, and "pending" both when it is not found and when
the lookup raises. -/
def checkInvitationStatus (service : String)
    (findResult : Except String (Option (String × String))) : String :=
  if service ≠ "unipile" then "pending"
  else
    match findResult with
    | .ok (some _) => "accepted"
    | .ok none => "pending"
    | .error _ => "pending"

/-- C6: a contact in "Invitation Sent" whose polled status is `accepted`
moves to "Allocated" (Sendable) in one `reconcile` run, and a second run
with the channel still reporting `accepted` leaves it untouched, because
the store filter no longer selects it — the accepted observation is
idempotent on an already-Sendable contact. -/
theorem c6_accepted_exactly_once (l : Lead) (now now2 : Nat) (f : Lead → String)
    (h : l.contactStatus = "Invitation Sent") :
    checkPendingInvitations now (fun _ => "accepted") [l] = [reconcileLead now "accepted" l]
    ∧ (reconcileLead now "accepted" l).contactStatus = "Allocated"
    ∧ checkPendingInvitations now2 f [reconcileLead now "accepted" l] =
        [reconcileLead now "accepted" l] := by
  have hr : (reconcileLead now "accepted" l).contactStatus = "Allocated" := by
    unfold reconcileLead
    rw [if_pos rfl]
  refine ⟨?_, hr, ?_⟩
  · unfold checkPendingInvitations
    simp [h]
  · unfold checkPendingInvitations
    simp only [List.map_cons, List.map_nil, hr]
    rw [if_neg (by decide)]

/-- A contact awaiting invitation acceptance. -/
def c6WitLead : Lead :=
  ⟨1, "Invitation Sent", some "Outreach", some 0, none, none, .invitationNote (some "inv-1"), none⟩

/-- Witness for C6: the exactly-once transition on a concrete pending
contact. -/
theorem c6_accepted_exactly_once_witness :
    checkPendingInvitations 5 (fun _ => "accepted") [c6WitLead] =
      [reconcileLead 5 "accepted" c6WitLead]
    ∧ (reconcileLead 5 "accepted" c6WitLead).contactStatus = "Allocated"
    ∧ checkPendingInvitations 9 (fun _ => "accepted") [reconcileLead 5 "accepted" c6WitLead] =
        [reconcileLead 5 "accepted" c6WitLead] :=
  c6_accepted_exactly_once c6WitLead 5 9 (fun _ => "accepted") rfl

/-- C7 (amended): the dispatch result handler never runs — reading
`result.status` raises for every result the senders can produce, the
per-lead exception isolation skips the contact, and the stored record is
left entirely unchanged.  In particular a Sendable ("Allocated") contact
stays Sendable after any failed attempt, nothing (not even a note) is
written, and no dispatch path ever sets the terminal "Failed"; that state
is reached only through the ledger's declined transition. -/
theorem c7_failed_dispatch_leaves_untouched (now : Nat) (r : SendResult) (m : String)
    (l : Lead) :
    processLeadResult now r m l = .error attributeErrorStatus
    ∧ processLeadStep now r m l = l
    ∧ (l.contactStatus = "Allocated" → (processLeadStep now r m l).contactStatus = "Allocated")
    ∧ (l.contactStatus ≠ "Failed" → (processLeadStep now r m l).contactStatus ≠ "Failed") := by
  have h2 : processLeadStep now r m l = l := rfl
  exact ⟨rfl, h2, fun hca => by rw [h2]; exact hca, fun hnf => by rw [h2]; exact hnf⟩

/-- An allocated contact about to be dispatched. -/
def c7CexLead : Lead :=
  ⟨2, "Allocated", some "Outreach", some 0, none, none, .raw "", none⟩

/-- Witness for C7: the untouched-store behaviour at the concrete failure
value produced for an unresolvable contact. -/
theorem c7_failed_dispatch_leaves_untouched_witness :
    processLeadStep 10 (userNotFoundRuntimeResult 10) "hello" c7CexLead = c7CexLead
    ∧ (processLeadStep 10 (userNotFoundRuntimeResult 10) "hello" c7CexLead).contactStatus
        = "Allocated"
    ∧ (processLeadStep 10 (userNotFoundRuntimeResult 10) "hello" c7CexLead).contactStatus
        ≠ "Failed" :=
  ⟨(c7_failed_dispatch_leaves_untouched 10 (userNotFoundRuntimeResult 10) "hello"
      c7CexLead).2.1,
   (c7_failed_dispatch_leaves_untouched 10 (userNotFoundRuntimeResult 10) "hello"
      c7CexLead).2.2.1 rfl,
   (c7_failed_dispatch_leaves_untouched 10 (userNotFoundRuntimeResult 10) "hello"
      c7CexLead).2.2.2 (by decide)⟩

/-- C7 counterexample to the claim as stated: on the contact-permanent
not-found failure the contact never becomes the terminal "Failed" — the
dispatch leaves its record untouched and it stays "Allocated". -/
theorem c7_counterexample :
    processLeadStep 10 (userNotFoundRuntimeResult 10) "hello" c7CexLead = c7CexLead
    ∧ c7CexLead.contactStatus = "Allocated"
    ∧ ¬ (processLeadStep 10 (userNotFoundRuntimeResult 10) "hello" c7CexLead).contactStatus
        = "Failed" :=
  ⟨rfl, rfl, by decide⟩

/-- C10: the unipile invitation poll answers only "pending" or
"accepted"; it answers "accepted" exactly when the contact is found in
the existing chats (internal errors and non-unipile services answer
"pending"); consequently a reconcile step driven by this adapter either
performs the accepted transition or changes nothing — the declined→Failed
and expired→Sendable paths are never triggered through it. -/
theorem c10_invitation_poll_range (service : String)
    (fr : Except String (Option (String × String))) :
    (checkInvitationStatus service fr = "pending"
      ∨ checkInvitationStatus service fr = "accepted")
    ∧ (checkInvitationStatus "unipile" fr = "accepted" ↔ ∃ chat, fr = .ok (some chat))
    ∧ (∀ now l, reconcileLead now (checkInvitationStatus service fr) l =
        (if checkInvitationStatus service fr = "accepted"
         then reconcileLead now "accepted" l else l)) := by
  have hrange : checkInvitationStatus service fr = "pending"
      ∨ checkInvitationStatus service fr = "accepted" := by
    unfold checkInvitationStatus
    split_ifs with hs
    · exact Or.inl rfl
    · rcases fr with e | ofr
      · exact Or.inl rfl
      · rcases ofr with _ | c
        · exact Or.inl rfl
        · exact Or.inr rfl
  refine ⟨hrange, ?_, ?_⟩
  · unfold checkInvitationStatus
    rw [if_neg (by decide)]
    rcases fr with e | ofr
    · dsimp only
      constructor
      · intro h
        exact absurd h (by decide)
      · rintro ⟨c, hc⟩
        exact Except.noConfusion hc
    · rcases ofr with _ | c
      · dsimp only
        constructor
        · intro h
          exact absurd h (by decide)
        · rintro ⟨c, hc⟩
          simp at hc
      · dsimp only
        exact ⟨fun _ => ⟨c, rfl⟩, fun _ => rfl⟩
  · intro now l
    rcases hrange with hp | ha
    · rw [hp, if_neg (by decide)]
      unfold reconcileLead
      rw [if_neg (by decide), if_neg (by decide), if_neg (by decide)]
    · rw [ha, if_pos rfl]

end InG
